import Mathlib

/-!
Verification development for the `werror` package of daotl/go-web-common:
a shallow embedding of the error-value model (`error.go`) and the
i18n template layer (`i18n.go`), with theorems checking the stated
behavioral properties against the embedded code.
-/

set_option maxHeartbeats 1000000

namespace Werror

/-- Parameter/metadata maps (`map[string]any` in Go): modelled as an optional
association list; `none` stands for Go's nil map, `some l` for a non-nil map
with entries `l`.  Values are modelled as strings (the code never inspects
them). -/
def Params := List (String × String)
deriving DecidableEq, Inhabited

mutual
/-- Model of Go `error` interface values as they occur in this package:
`plainErr id msg` is an opaque leaf error (e.g. from `errors.New`; `id`
models the distinct allocation identity of separately created errors);
`wrapErr cause suffix` is `fmt.Errorf("%w: %s", cause, suffix)` (rendering
`cause.Error() ++ ": " ++ suffix`, unwrapping to `cause`);
`werr e` is a `*Err` value used through the `error` interface. -/
inductive GoError : Type where
  | plainErr (id : Nat) (msg : String) : GoError
  | wrapErr (cause : GoError) (suffix : String) : GoError
  | werr (e : Err) : GoError

/-- Model of the `Err` struct of `error.go`: embedded `error`, `HttpStatus`,
`Code`, `Message`, `Details` (a slice of wrapped errors) and the unexported
`params` map. -/
inductive Err : Type where
  | mk (embedded : GoError) (httpStatus : Int) (code message : String)
       (details : List Err) (params : Option Params) : Err
end

/-- Projection: the embedded `error` field of an `Err`. -/
def Err.GetEmbedded : Err → GoError
  | .mk em _ _ _ _ _ => em

/-- Model of `Err.GetHttpStatus`. -/
def Err.GetHttpStatus : Err → Int
  | .mk _ st _ _ _ _ => st

/-- Model of `Err.GetCode`. -/
def Err.GetCode : Err → String
  | .mk _ _ c _ _ _ => c

/-- Model of `Err.GetMessage`. -/
def Err.GetMessage : Err → String
  | .mk _ _ _ m _ _ => m

/-- Model of `Err.GetDetails`. -/
def Err.GetDetails : Err → List Err
  | .mk _ _ _ _ d _ => d

/-- Projection: the unexported `params` field of an `Err`. -/
def Err.paramsField : Err → Option Params
  | .mk _ _ _ _ _ p => p

/-- Whitespace-trim of a character list (both ends). -/
def trimChars (cs : List Char) : List Char :=
  ((cs.dropWhile Char.isWhitespace).reverse.dropWhile Char.isWhitespace).reverse

/-- Model of `strings.TrimSpace`. -/
def trimString (s : String) : String :=
  String.mk (trimChars s.data)

mutual
/-- Model of Go interface equality (`==`) between error values, as used by
`errors.Is`: leaf errors are equal when they are the same allocation
(same `id`, same message); composite values compare structurally. -/
def beqGo : GoError → GoError → Bool
  | .plainErr i1 m1, .plainErr i2 m2 => i1 == i2 && m1 == m2
  | .wrapErr c1 s1, .wrapErr c2 s2 => beqGo c1 c2 && s1 == s2
  | .werr e1, .werr e2 => beqErr e1 e2
  | _, _ => false

/-- Structural equality of `Err` values (pointer equality over-approximated
by field equality). -/
def beqErr : Err → Err → Bool
  | .mk em1 st1 c1 m1 d1 p1, .mk em2 st2 c2 m2 d2 p2 =>
    beqGo em1 em2 && st1 == st2 && c1 == c2 && m1 == m2 && beqErrList d1 d2 && p1 == p2

/-- Pointwise structural equality of `Err` lists. -/
def beqErrList : List Err → List Err → Bool
  | [], [] => true
  | a :: as, b :: bs => beqErr a b && beqErrList as bs
  | _, _ => false
end

mutual
/-- Model of the string `Error()` rendering of a Go error value. -/
def errorStrGo : GoError → String
  | .plainErr _ m => m
  | .wrapErr c s => errorStrGo c ++ ": " ++ s
  | .werr e => errorStrErr e

/-- Model of `Err.Error()`: `fmt.Sprintf("%v: %s", e.HttpStatus, e.error.Error())`. -/
def errorStrErr : Err → String
  | .mk em st _ _ _ _ => toString st ++ ": " ++ errorStrGo em
end

/-- Model of `errors.Unwrap`: of the error shapes occurring here only the
`fmt.Errorf("%w: ...")` wrapper has an `Unwrap` method; `*Err` and plain
errors do not. -/
def goUnwrap : GoError → Option GoError
  | .wrapErr c _ => some c
  | _ => none

mutual
/-- Model of `errors.Is(err, target)`: at each chain element, compare with
`target` by interface equality, consult the element's own `Is` method
(only `*Err` has one), then unwrap. -/
def goIs : GoError → GoError → Bool
  | e, t =>
    beqGo e t ||
    (match e with
     | .werr v => errIs v t
     | _ => false) ||
    (match e with
     | .wrapErr c _ => goIs c t
     | _ => false)

/-- Model of `Err.Is` (error.go lines 190-195): if the target is a `*Err`,
compare codes; otherwise delegate to `errors.Is` on the embedded error. -/
def errIs : Err → GoError → Bool
  | .mk em _ c _ _ _, t =>
    match t with
    | .werr tv => tv.GetCode == c
    | _ => goIs em t
end

/-- Model of `errors.As(err, &werr)` for target type `*Err`: walk the
unwrap chain; the first element assignable to `*Err` is returned
(assignability is checked before any custom `As` method, so a `*Err`
element is taken as soon as it is reached). -/
def goAsErr : GoError → Option Err
  | .werr v => some v
  | .wrapErr c _ => goAsErr c
  | .plainErr _ _ => none

/-- Model of `NewBaseErr(httpStatus, code, msg)`: fresh `Err` whose embedded
error is the non-wrapping `fmt.Errorf("%s %s", code, msg)`. -/
def NewBaseErr (httpStatus : Int) (code msg : String) : Err :=
  .mk (.plainErr 0 (code ++ " " ++ msg)) httpStatus code msg [] none

/-- Model of the catalog base `ErrBadRequest`. -/
def ErrBadRequest : Err := NewBaseErr 400 "BadRequest" "Bad request"

/-- Model of the catalog base `ErrNotFound`. -/
def ErrNotFound : Err := NewBaseErr 404 "NotFound" "Not found"

/-- Model of the catalog base `ErrInternalServerError`. -/
def ErrInternalServerError : Err :=
  NewBaseErr 500 "InternalServerError"
    "The server encountered an internal error, please retry the request"

/-- Model of `NewErr(base, msg, msgDetail)` (error.go lines 133-148):
trims `msg`, falls back to the base message when blank, appends the trimmed
detail when non-blank, and wraps `base` as the cause. -/
def NewErr (base : Err) (msg msgDetail : String) : Err :=
  let m0 := trimString msg
  let m1 := if m0 == "" then base.GetMessage else m0
  let d := trimString msgDetail
  let m2 := if d != "" then m1 ++ ": " ++ d else m1
  .mk (.wrapErr (.werr base) m2) base.GetHttpStatus base.GetCode m2 [] none

/-- Model of `NewErrFromError(base, err)` (error.go lines 151-166):
chain-extract a `*Err` from `err`; when one is found with the base's code
and message, return it unchanged; otherwise build a new `Err` keeping `err`
as the embedded cause, with the found `*Err`'s message (or `err`'s rendered
string) as the detail. -/
def NewErrFromError (base : Err) (err : GoError) : Err :=
  match goAsErr err with
  | some w =>
    if w.GetCode == base.GetCode && w.GetMessage == base.GetMessage then w
    else .mk err base.GetHttpStatus base.GetCode
            (base.GetMessage ++ ": " ++ w.GetMessage) [] none
  | none =>
    .mk err base.GetHttpStatus base.GetCode
        (base.GetMessage ++ ": " ++ errorStrGo err) [] none

/-- Model of the `interface{}` argument universe of the conversion layer:
`nil`, an error value, a non-error value with a `String()` method (`id`
models the identity of the error `errors.New` would allocate from it), or
any other value with its `fmt "%v"` rendering. -/
inductive GoValue : Type where
  | nil : GoValue
  | err (e : GoError) : GoValue
  | stringer (id : Nat) (s : String) : GoValue
  | other (rendered : String) : GoValue

/-- Model of `ToError(x)` (error.go lines 16-28): nil stays nil, errors pass
through, Stringers become fresh plain errors, anything else collapses to the
`ErrInternalServerError` base value. -/
def ToError : GoValue → Option GoError
  | .nil => none
  | .err e => some e
  | .stringer idn s => some (.plainErr idn s)
  | .other _ => some (.werr ErrInternalServerError)

/-- Model of `ToErr(x)` (error.go lines 91-101): nil stays nil; otherwise
convert via `ToError`, return the first `*Err` in the resulting chain when
one exists, else wrap under `ErrInternalServerError`. -/
def ToErr : GoValue → Option Err
  | .nil => none
  | x =>
    match ToError x with
    | none => none
    | some e =>
      match goAsErr e with
      | some w => some w
      | none => some (NewErrFromError ErrInternalServerError e)

/-- Model of `IsErrOf(err, code)` (error.go lines 245-249): chain-extract a
`*Err` and compare its code. -/
def IsErrOf (err : GoError) (code : String) : Bool :=
  match goAsErr err with
  | some e => e.GetCode == code
  | none => false

/-- Model of `Err.GetParams` (error.go lines 222-231): nil map gives nil;
otherwise a fresh copy of the entries is returned (copying is the identity
in this pure model). -/
def Err.GetParams : Err → Option Params
  | .mk _ _ _ _ _ p =>
    match p with
    | none => none
    | some l => some l

/-- Model of `Err.SetParams` (error.go lines 233-242): a nil argument
installs a fresh empty map; otherwise the entries are copied in. -/
def Err.SetParams : Err → Option Params → Err
  | .mk em st c m d _, p =>
    match p with
    | none => .mk em st c m d (some [])
    | some l => .mk em st c m d (some l)

/-- Template data (`templateData any` in Go, used as `map[string]string` or
nil by this package): `none` is Go's nil, `some m` a string map. -/
def TData := Option (List (String × String))
deriving DecidableEq, Inhabited

/-- Model of `i18n.Message` from the go-i18n library: only the `ID` and
`Other` fields are read by this package. -/
structure I18nMessage where
  ID : String
  Other : String
deriving DecidableEq

/-- Node of a compiled text template: literal text or a `.Field` action. -/
inductive TmplNode : Type where
  | text (s : String) : TmplNode
  | field (name : String) : TmplNode
deriving DecidableEq

/-- Modelled from the spec: action parsing of the Go `text/template` engine
(an external library), restricted to the single-field form `.Name` this
repository uses; `rev` holds the action body in reverse scan order. -/
def mkAction (rev : List Char) : Option String :=
  match trimChars rev.reverse with
  | '.' :: rest =>
    if !rest.isEmpty && rest.all Char.isAlphanum then some (String.mk rest) else none
  | _ => none

/-- Flush a pending (reversed) literal-character accumulator into the node
accumulator. -/
def pushLit (lit : List Char) (nodes : List TmplNode) : List TmplNode :=
  if lit.isEmpty then nodes else .text (String.mk lit.reverse) :: nodes

/-- Modelled from the spec: the scanner of the Go `text/template` parser
(an external library), restricted to literal text and `\x7b\x7b.Name\x7d\x7d`
actions.  Arguments: remaining input, action accumulator (`some` while
inside an open action, reversed), literal accumulator (reversed), emitted
nodes (reversed).  An action left unclosed at end of input is a parse
failure, as is a malformed action body. -/
def scan : List Char → Option (List Char) → List Char → List TmplNode →
    Option (List TmplNode)
  | [], some _, _, _ => none
  | [], none, lit, nodes => some (pushLit lit nodes).reverse
  | '\x7b' :: '\x7b' :: rest, none, lit, nodes => scan rest (some []) [] (pushLit lit nodes)
  | '\x7d' :: '\x7d' :: rest, some acc, lit, nodes =>
    (match mkAction acc with
     | some f => scan rest none lit (.field f :: nodes)
     | none => none)
  | c :: rest, some acc, lit, nodes => scan rest (some (c :: acc)) lit nodes
  | c :: rest, none, lit, nodes => scan rest none (c :: lit) nodes

/-- Modelled from the spec: `template.New(name).Parse(text)` of the Go
`text/template` library, in the restricted template language above;
`none` is a parse error. -/
def parseTmpl (s : String) : Option (List TmplNode) :=
  scan s.data none [] []

/-- Check of a character list for an adjacent pair of opening braces. -/
def hasOpenChars : List Char → Bool
  | '\x7b' :: '\x7b' :: _ => true
  | _ :: rest => hasOpenChars rest
  | [] => false

/-- Model of `strings.Contains(s, "\x7b\x7b")`: the placeholder-opening
marker test of the `NewI18nErr` fast path. -/
def hasOpenMarker (s : String) : Bool :=
  hasOpenChars s.data

/-- Modelled from the spec: execution of one template node against the call
data; an unresolved field renders as the literal `<no value>` marker. -/
def execNode (data : TData) : TmplNode → String
  | .text s => s
  | .field n =>
    match data with
    | some m =>
      match m.lookup n with
      | some v => v
      | none => "<no value>"
    | none => "<no value>"

/-- Modelled from the spec: `tmpl.Execute(&buf, templateData)` of the Go
`text/template` library over the restricted template language. -/
def execTmpl (nodes : List TmplNode) (data : TData) : String :=
  String.join (nodes.map (execNode data))

/-- Failure values of the i18n layer: `otherMissing` is
`ErrI18nMessageOtherMissing`, `parseFailure` a template parse error, and
`templateMissing` is `ErrI18nTemplateMissing`. -/
inductive I18nFailure : Type where
  | otherMissing : I18nFailure
  | parseFailure : I18nFailure
  | templateMissing : I18nFailure
deriving DecidableEq

/-- Model of the `I18nErrTmpl` struct of `i18n.go`: base error, i18n
message, compiled template. -/
structure I18nErrTmpl where
  base : Err
  msg : I18nMessage
  tmpl : Option (List TmplNode)

/-- Modelled from the spec: the rendered-error value (`Si18nerr` embedding
the `Serr` struct of the version of `error.go` this `i18n.go` compiles
against, which is not under src/): the `Serr` part carries the embedded
error, HTTP status, code, message and metadata; the i18n part carries the
originating message and the data used to render. -/
structure Si18nerr where
  embedded : GoError
  httpStatus : Int
  code : String
  message : String
  metadata : TData
  i18nMsg : I18nMessage
  renderedData : TData

/-- Model of `NewI18nErrTmpl(base, i18n)` (i18n.go lines 46-61): empty
`Other` fails with `ErrI18nMessageOtherMissing`; a template parse error is
propagated; otherwise the compiled template is bound to `base`. -/
def NewI18nErrTmpl (base : Err) (m : I18nMessage) : Except I18nFailure I18nErrTmpl :=
  if m.Other = "" then .error .otherMissing
  else
    match parseTmpl m.Other with
    | none => .error .parseFailure
    | some nodes => .ok ⟨base, m, some nodes⟩

/-- Model of `I18nErrTmpl.Render(templateData)` (i18n.go lines 73-99):
execute the template, build the message via `NewErr(base, msg, "")`,
override the code with the i18n ID when it is non-blank (`SetCode`,
modelled from the spec as setting the code field of the version of `Serr`
not under src/), and record the data as both metadata and rendered data. -/
def RenderTmpl (t : I18nErrTmpl) (data : TData) : Except I18nFailure Si18nerr :=
  match t.tmpl with
  | none => .error .templateMissing
  | some nodes =>
    let msg := execTmpl nodes data
    let e := NewErr t.base msg ""
    let code := if trimString t.msg.ID == "" then e.GetCode else t.msg.ID
    .ok ⟨e.GetEmbedded, e.GetHttpStatus, code, e.GetMessage, data, t.msg, data⟩

/-- Model of `NewI18nErr(base, i18n, templateData)` (i18n.go lines
127-156): empty `Other` fails first; when the text holds no opening marker
the fast path builds the rendered error directly from the literal text
(leaving the metadata at its zero value); otherwise compile then render. -/
def NewI18nErr (base : Err) (m : I18nMessage) (data : TData) :
    Except I18nFailure Si18nerr :=
  if m.Other = "" then .error .otherMissing
  else if hasOpenMarker m.Other = false then
    let code := if trimString m.ID == "" then base.GetCode else m.ID
    .ok ⟨.wrapErr (.werr base) m.Other, base.GetHttpStatus, code, m.Other, none, m, data⟩
  else
    match NewI18nErrTmpl base m with
    | .error e => .error e
    | .ok t => RenderTmpl t data

/-- Compile-then-render composition (the slow path of the spec): a
`NewI18nErrTmpl` followed by `Render`. -/
def slowRender (base : Err) (m : I18nMessage) (data : TData) :
    Except I18nFailure Si18nerr :=
  match NewI18nErrTmpl base m with
  | .error e => .error e
  | .ok t => RenderTmpl t data

/-- JSON values, for the serialized form of an `Err`. -/
inductive Json : Type where
  | str (s : String) : Json
  | arr (elems : List Json) : Json
  | obj (fields : List (String × Json)) : Json

/-- Model of `encoding/json` marshaling of the `Err` struct per its field
tags (error.go lines 76-87): `code` and `message` always, `details` only
when non-empty (`omitempty`), `HttpStatus` excluded (`json:"-"`), and the
unexported `error` and `params` fields skipped by the marshaller. -/
def jsonOfErr : Err → Json
  | .mk _ _ c m ds _ =>
    .obj ([("code", .str c), ("message", .str m)] ++
      (if ds.isEmpty then []
       else [("details", .arr (ds.attach.map (fun x => jsonOfErr x.1)))]))
decreasing_by
  have h := List.sizeOf_lt_of_mem x.2
  simp only [Err.mk.sizeOf_spec]
  omega

/-- Top-level field names of a serialized JSON object. -/
def jsonTopKeys : Json → List String
  | .obj fs => fs.map Prod.fst
  | _ => []

/-- Test for an error value being a `*Err` (an ErrorValue). -/
def isWErrB : GoError → Bool
  | .werr _ => true
  | _ => false

mutual
/-- Occurrence of a target in the cause chain of an error value: the target
is compared at the current node, then the walk follows the wrap cause or,
through an ErrorValue, its embedded error. -/
def chainContains : GoError → GoError → Bool
  | x, t =>
    beqGo x t ||
    (match x with
     | .wrapErr c _ => chainContains c t
     | .werr v => chainContainsErr v t
     | _ => false)

/-- Occurrence of a target in the cause chain of an ErrorValue. -/
def chainContainsErr : Err → GoError → Bool
  | .mk em _ _ _ _ _, t => chainContains em t
end

/-- Elements visited by the standard unwrap walk starting at an error
value: the wrap spine followed down to the first non-wrapping element. -/
def chainElems : GoError → List GoError
  | .wrapErr c s => .wrapErr c s :: chainElems c
  | .plainErr i m => [.plainErr i m]
  | .werr v => [.werr v]

mutual
/-- The `errors.Is` walk on a non-ErrorValue target coincides with plain
cause-chain membership. -/
theorem goIs_chain : ∀ (x t : GoError), isWErrB t = false → goIs x t = chainContains x t
  | .plainErr i m, t, h => by
    simp [goIs, chainContains]
  | .wrapErr c s, t, h => by
    simp [goIs, chainContains, goIs_chain c t h]
  | .werr v, t, h => by
    simp [goIs, chainContains, errIs_chain v t h]

/-- The `Err.Is` method on a non-ErrorValue target coincides with plain
cause-chain membership. -/
theorem errIs_chain : ∀ (v : Err) (t : GoError), isWErrB t = false →
    errIs v t = chainContainsErr v t
  | .mk em st c m d p, t, h => by
    cases t with
    | werr tv => simp [isWErrB] at h
    | plainErr i msg => simp [errIs, chainContainsErr, goIs_chain em _ h]
    | wrapErr cc ss => simp [errIs, chainContainsErr, goIs_chain em _ h]
end

/-- C1: `Err.Is` compares codes when the target is an ErrorValue (message,
status and cause play no role: the result depends only on the two code
fields); on a non-ErrorValue target (a plain or a wrapping error) it holds
exactly when the target occurs in the cause chain; and every ErrorValue
satisfies `e.Is(e)`. -/
theorem c1_is_semantics (e tv : Err) (idn : Nat) (m : String) (c : GoError) (s : String) :
    errIs e (.werr tv) = (tv.GetCode == e.GetCode)
    ∧ errIs e (.plainErr idn m) = chainContains e.GetEmbedded (.plainErr idn m)
    ∧ errIs e (.wrapErr c s) = chainContains e.GetEmbedded (.wrapErr c s)
    ∧ errIs e (.werr e) = true := by
  obtain ⟨em, st, cd, msg, d, p⟩ := e
  refine ⟨by simp [errIs, Err.GetCode], ?_, ?_, by simp [errIs, Err.GetCode]⟩
  · have h := errIs_chain (.mk em st cd msg d p) (.plainErr idn m) (by simp [isWErrB])
    rw [chainContainsErr] at h
    simpa [Err.GetEmbedded] using h
  · have h := errIs_chain (.mk em st cd msg d p) (.wrapErr c s) (by simp [isWErrB])
    rw [chainContainsErr] at h
    simpa [Err.GetEmbedded] using h

/-- C2 counterexample: for the plain wrapping error
`fmt.Errorf("%w", ErrBadRequest)`-style input (not itself an ErrorValue)
whose chain contains an ErrorValue matching the base, `NewErrFromError`
returns that inner ErrorValue unchanged, not the new wrap with message
`base.message ++ ": " ++ err.Error()` the claim requires for a
non-ErrorValue argument. -/
theorem c2_counterexample :
    NewErrFromError ErrBadRequest (.wrapErr (.werr ErrBadRequest) "ctx") = ErrBadRequest
    ∧ (NewErrFromError ErrBadRequest (.wrapErr (.werr ErrBadRequest) "ctx")).GetMessage
        = "Bad request"
    ∧ ErrBadRequest.GetMessage ++ ": " ++ errorStrGo (.wrapErr (.werr ErrBadRequest) "ctx")
        = "Bad request: 400: BadRequest Bad request: ctx"
    ∧ ("Bad request" == "Bad request: 400: BadRequest Bad request: ctx") = false := by
  refine ⟨rfl, rfl, ?_, by decide⟩
  simp only [errorStrGo, errorStrErr, ErrBadRequest, NewBaseErr, Err.GetMessage]
  rfl

/-- C2 amended: `NewErrFromError(b, e)` chain-extracts an ErrorValue from
`e`; when one is found with b's code and message it is returned itself (for
`e` itself an ErrorValue this is the claimed idempotence identity);
otherwise a new ErrorValue carries b's status and code, cause `e`, and
message `b.message ++ ": " ++ detail` with detail the found ErrorValue's
message when extraction succeeds and `e`'s rendered string otherwise. -/
theorem c2_amended (b v : Err) (e : GoError) :
    (v.GetCode = b.GetCode ∧ v.GetMessage = b.GetMessage →
       NewErrFromError b (.werr v) = v)
    ∧ (goAsErr e = some v → v.GetCode = b.GetCode → v.GetMessage = b.GetMessage →
       NewErrFromError b e = v)
    ∧ (goAsErr e = some v → (v.GetCode = b.GetCode ∧ v.GetMessage = b.GetMessage → False) →
       NewErrFromError b e =
         .mk e b.GetHttpStatus b.GetCode (b.GetMessage ++ ": " ++ v.GetMessage) [] none)
    ∧ (goAsErr e = none →
       NewErrFromError b e =
         .mk e b.GetHttpStatus b.GetCode (b.GetMessage ++ ": " ++ errorStrGo e) [] none) := by
  refine ⟨?_, ?_, ?_, ?_⟩
  · rintro ⟨h1, h2⟩
    simp [NewErrFromError, goAsErr, h1, h2]
  · intro hA h1 h2
    simp [NewErrFromError, hA, h1, h2]
  · intro hA hne
    have hb : (v.GetCode == b.GetCode && v.GetMessage == b.GetMessage) = false := by
      by_contra hcon
      rw [Bool.not_eq_false, Bool.and_eq_true, beq_iff_eq, beq_iff_eq] at hcon
      exact hne hcon
    simp [NewErrFromError, hA, hb]
  · intro hA
    simp [NewErrFromError, hA]

/-- C2 witness: the idempotence identity at `ErrBadRequest` itself, and the
plain-cause wrap at a concrete leaf error. -/
theorem c2_witness :
    NewErrFromError ErrBadRequest (.werr ErrBadRequest) = ErrBadRequest
    ∧ NewErrFromError ErrBadRequest (.plainErr 3 "boom")
        = .mk (.plainErr 3 "boom") 400 "BadRequest" "Bad request: boom" [] none := by
  constructor
  · exact (c2_amended ErrBadRequest ErrBadRequest (.werr ErrBadRequest)).1 ⟨rfl, rfl⟩
  · exact (c2_amended ErrBadRequest ErrBadRequest (.plainErr 3 "boom")).2.2.2 rfl

/-- C3 counterexample: for the non-error value `12345`, `ToErr` returns the
`ErrInternalServerError` base value itself, unchanged, whereas the claim
requires the `NewErrFromError` wrap of a generic error — whose message
carries the `": 12345"` suffix the actual result lacks. -/
theorem c3_counterexample :
    ToErr (.other "12345") = some ErrInternalServerError
    ∧ (ToErr (.other "12345")).map Err.GetMessage
        = some "The server encountered an internal error, please retry the request"
    ∧ (NewErrFromError ErrInternalServerError (.plainErr 0 "12345")).GetMessage
        = "The server encountered an internal error, please retry the request: 12345"
    ∧ ("The server encountered an internal error, please retry the request"
        == "The server encountered an internal error, please retry the request: 12345")
       = false := by
  exact ⟨rfl, rfl, rfl, by decide⟩

/-- C3 amended: `ToErr` is total: nil gives nil; otherwise the input is
converted via `ToError` and the first ErrorValue in the result's cause
chain is returned when one exists — in particular the input itself when it
is an ErrorValue, and the `ErrInternalServerError` base itself for
non-error non-stringer values (which `ToError` collapses to that base) —
and only when the chain holds no ErrorValue is the result
`NewErrFromError(ErrInternalServerError, ·)` of the converted error, as for
any stringer value. -/
theorem c3_amended (e : GoError) (v : Err) (idn : Nat) (s r : String) :
    ToErr .nil = none
    ∧ ToErr (.err (.werr v)) = some v
    ∧ (goAsErr e = none → ToErr (.err e) = some (NewErrFromError ErrInternalServerError e))
    ∧ (∀ w, goAsErr e = some w → ToErr (.err e) = some w)
    ∧ ToErr (.stringer idn s) = some (NewErrFromError ErrInternalServerError (.plainErr idn s))
    ∧ ToErr (.other r) = some ErrInternalServerError := by
  refine ⟨rfl, rfl, ?_, ?_, rfl, rfl⟩
  · intro h
    simp [ToErr, ToError, h]
  · intro w h
    simp [ToErr, ToError, h]

/-- C3 witness: a plain error wraps under the internal-server-error base,
and an error whose chain holds `ErrBadRequest` yields that base itself. -/
theorem c3_witness :
    ToErr (.err (.plainErr 7 "db down"))
      = some (NewErrFromError ErrInternalServerError (.plainErr 7 "db down"))
    ∧ ToErr (.err (.wrapErr (.werr ErrBadRequest) "ctx")) = some ErrBadRequest := by
  constructor
  · exact (c3_amended (.plainErr 7 "db down") ErrBadRequest 0 "" "").2.2.1 rfl
  · exact (c3_amended (.wrapErr (.werr ErrBadRequest) "ctx") ErrBadRequest 0 "" "").2.2.2.1
      ErrBadRequest rfl

/-- C4: `ToError` is total: nil gives nil, an error is returned itself, a
stringer non-error becomes a plain (non-ErrorValue) error rendering exactly
its string, and any other value collapses to the catalog's
`ErrInternalServerError` base, whose code is `InternalServerError`. -/
theorem c4_toError (e : GoError) (idn : Nat) (s r : String) :
    ToError .nil = none
    ∧ ToError (.err e) = some e
    ∧ ToError (.stringer idn s) = some (.plainErr idn s)
    ∧ errorStrGo (.plainErr idn s) = s
    ∧ goAsErr (.plainErr idn s) = none
    ∧ ToError (.other r) = some (.werr ErrInternalServerError)
    ∧ ErrInternalServerError.GetCode = "InternalServerError" := by
  exact ⟨rfl, rfl, rfl, rfl, rfl, rfl, rfl⟩

/-- Dropping the head of a marker-free character list keeps it marker-free. -/
theorem hasOpenChars_cons_false : ∀ (c : Char) (cs : List Char),
    hasOpenChars (c :: cs) = false → hasOpenChars cs = false := by
  intro c cs h
  rw [hasOpenChars.eq_def] at h
  split at h
  · exact absurd h (by simp)
  · rename_i c2 rest hno heq
    injection heq with hh1 hh2
    rwa [hh2]
  · rename_i heq
    exact absurd heq (by simp)

/-- The template scanner on marker-free input accumulates the whole input
as one literal. -/
theorem scan_noOpen : ∀ (cs : List Char), hasOpenChars cs = false →
    ∀ (acc : List Char) (nodes : List TmplNode),
    scan cs none acc nodes = some ((pushLit (cs.reverse ++ acc) nodes).reverse)
  | [], h => by
    intro acc nodes
    simp [scan]
  | c :: cs, h => by
    intro acc nodes
    rw [scan.eq_def]
    split
    · rename_i val heq1 heq2
      exact absurd heq1 (by simp)
    · rename_i heq1 heq2
      exact absurd heq1 (by simp)
    · rename_i rest heq1 heq2
      rw [heq1] at h
      simp [hasOpenChars] at h
    · rename_i rest acc2 heq1 heq2
      exact absurd heq2 (by simp)
    · rename_i c2 rest acc2 hno heq1 heq2
      exact absurd heq2 (by simp)
    · rename_i c2 rest hno heq1 heq2
      obtain ⟨hc, hr⟩ : c2 = c ∧ rest = cs := by
        injection heq1 with hh1 hh2
        exact ⟨hh1.symm, hh2.symm⟩
      rw [hc, hr, scan_noOpen cs (hasOpenChars_cons_false c cs h)]
      simp

/-- Parsing a non-empty marker-free template yields the single literal node
holding the whole text. -/
theorem parseTmpl_noOpen (s : String) (hs : s ≠ "") (h : hasOpenMarker s = false) :
    parseTmpl s = some [.text s] := by
  rw [parseTmpl, scan_noOpen s.data h]
  have hd : s.data ≠ [] := by
    intro hc
    apply hs
    obtain ⟨l⟩ := s
    simp at hc
    simp [hc]
  obtain ⟨l⟩ := s
  simp only [List.append_nil] at hd ⊢
  simp [pushLit, hd, List.isEmpty_iff]

/-- Executing a single-literal template returns the literal for any data. -/
theorem execTmpl_single (s : String) (data : TData) :
    execTmpl [.text s] data = s := by
  simp [execTmpl, execNode, String.join]

/-- C5 amended: for a non-empty marker-free template text, the fast path of
`NewI18nErr` renders exactly the literal text with code the message-id when
non-blank and the base's code otherwise; the slow path
(`NewI18nErrTmpl` then `Render`) assigns the same code, and the same
message whenever the text equals its whitespace-trimmed form (the slow path
passes the rendered message through `NewErr`, which trims it). -/
theorem c5_amended (base : Err) (id text : String) (data : TData) :
    text ≠ "" → hasOpenMarker text = false →
    ((NewI18nErr base ⟨id, text⟩ data).map (fun re => (re.message, re.code))
        = .ok (text, if trimString id == "" then base.GetCode else id))
    ∧ (trimString text = text →
       (slowRender base ⟨id, text⟩ data).map (fun re => (re.message, re.code))
          = .ok (text, if trimString id == "" then base.GetCode else id)) := by
  intro ht hm
  have htb : (text == "") = false := beq_eq_false_iff_ne.mpr ht
  have hd0 : trimString "" = "" := rfl
  constructor
  · simp [NewI18nErr, ht, hm, Except.map]
  · intro htr
    have h1 : NewI18nErrTmpl base ⟨id, text⟩ = .ok ⟨base, ⟨id, text⟩, some [.text text]⟩ := by
      simp [NewI18nErrTmpl, ht, parseTmpl_noOpen text ht hm]
    have h2 : (NewErr base text "").GetMessage = text := by
      simp [NewErr, Err.GetMessage, htr, htb, hd0]
    have h3 : (NewErr base text "").GetCode = base.GetCode := by
      obtain ⟨em, st, c, m, d, p⟩ := base
      simp [NewErr, Err.GetCode]
    rw [slowRender, h1]
    simp [RenderTmpl, execTmpl_single, h2, h3, Except.map]

/-- C5 counterexample: at message-id `Simple`, template text `"x "` (which
is non-empty and holds no opening marker) and nil data, the fast path keeps
message `"x "` while the slow path trims it to `"x"` — so the two paths do
not agree on every marker-free text, against the claim. -/
theorem c5_counterexample :
    (NewI18nErr ErrBadRequest ⟨"Simple", "x "⟩ none).map (fun re => re.message) = .ok "x "
    ∧ (slowRender ErrBadRequest ⟨"Simple", "x "⟩ none).map (fun re => re.message) = .ok "x"
    ∧ ("x " == "x") = false := by
  exact ⟨rfl, rfl, by decide⟩

/-- C5 witness: the claim's own instance — id `Simple`, text
`A simple error occurred`, arbitrary concrete data — renders that literal
message with code `Simple` on both paths. -/
theorem c5_witness :
    (NewI18nErr ErrBadRequest ⟨"Simple", "A simple error occurred"⟩ (some [("k", "v")])).map
        (fun re => (re.message, re.code)) = .ok ("A simple error occurred", "Simple")
    ∧ (slowRender ErrBadRequest ⟨"Simple", "A simple error occurred"⟩ (some [("k", "v")])).map
        (fun re => (re.message, re.code)) = .ok ("A simple error occurred", "Simple") := by
  have h := c5_amended ErrBadRequest "Simple" "A simple error occurred" (some [("k", "v")])
    (by decide) (by decide)
  have hid : (trimString "Simple" == "") = false := by decide
  constructor
  · have h1 := h.1
    simp only [hid, Bool.false_eq_true, if_false] at h1
    exact h1
  · have h2 := h.2 (by decide)
    simp only [hid, Bool.false_eq_true, if_false] at h2
    exact h2

/-- C6 counterexample: for the non-blank message `"hello "` the effective
message of `NewErr` is the trimmed `"hello"`, not the message itself as the
claim states. -/
theorem c6_counterexample :
    (NewErr ErrBadRequest "hello " "").GetMessage = "hello"
    ∧ ("hello" == "hello ") = false := by
  exact ⟨by decide, by decide⟩

/-- C6 amended: `NewErr(b, message, detail)` inherits b's status and code
unconditionally; its effective message is b's message when the message is
blank (whitespace-only counts as blank) and the whitespace-trimmed message
otherwise; when the detail is non-blank its whitespace-trimmed form is
appended separated by `": "`; and the cause is b. -/
theorem c6_amended (b : Err) (msg det : String) :
    (NewErr b msg det).GetHttpStatus = b.GetHttpStatus
    ∧ (NewErr b msg det).GetCode = b.GetCode
    ∧ (NewErr b msg det).GetMessage =
        (if trimString det == ""
         then (if trimString msg == "" then b.GetMessage else trimString msg)
         else (if trimString msg == "" then b.GetMessage else trimString msg)
              ++ ": " ++ trimString det)
    ∧ goUnwrap (NewErr b msg det).GetEmbedded = some (.werr b) := by
  refine ⟨?_, ?_, ?_, ?_⟩
  · obtain ⟨em, st, c, m, d, p⟩ := b
    simp [NewErr, Err.GetHttpStatus]
  · obtain ⟨em, st, c, m, d, p⟩ := b
    simp [NewErr, Err.GetCode]
  · by_cases hd : (trimString det == "") = true
    · have hdp : trimString det = "" := beq_iff_eq.mp hd
      simp [NewErr, Err.GetMessage, hd, hdp]
    · simp only [Bool.not_eq_true] at hd
      have hdp : trimString det ≠ "" := beq_eq_false_iff_ne.mp hd
      simp [NewErr, Err.GetMessage, hd, hdp]
  · simp [NewErr, Err.GetEmbedded, goUnwrap]

/-- C7: `NewI18nErrTmpl` fails with the body-missing error exactly when the
raw template text is empty; on non-empty text it fails with a parse error
exactly when parsing fails and otherwise succeeds with the compiled
template; and a whitespace-only body is not treated as missing. -/
theorem c7_compile (base : Err) (m : I18nMessage) :
    (NewI18nErrTmpl base m = .error .otherMissing ↔ m.Other = "")
    ∧ (m.Other ≠ "" → parseTmpl m.Other = none →
        NewI18nErrTmpl base m = .error .parseFailure)
    ∧ (∀ nodes, m.Other ≠ "" → parseTmpl m.Other = some nodes →
        NewI18nErrTmpl base m = .ok ⟨base, m, some nodes⟩)
    ∧ NewI18nErrTmpl base ⟨m.ID, "   "⟩ = .ok ⟨base, ⟨m.ID, "   "⟩, some [.text "   "]⟩ := by
  refine ⟨⟨?_, ?_⟩, ?_, ?_, ?_⟩
  · intro h
    by_contra hne
    rw [NewI18nErrTmpl, if_neg hne] at h
    cases hp : parseTmpl m.Other with
    | none =>
      rw [hp] at h
      exact absurd h (by simp)
    | some nodes =>
      rw [hp] at h
      exact absurd h (by simp)
  · intro h
    simp [NewI18nErrTmpl, h]
  · intro h hp
    simp [NewI18nErrTmpl, h, hp]
  · intro nodes h hp
    simp [NewI18nErrTmpl, h, hp]
  · have hp : parseTmpl "   " = some [.text "   "] := rfl
    simp [NewI18nErrTmpl, hp]

/-- C7 witness: empty body fails as body-missing, an unclosed opening
marker fails as a parse error, and a plain non-empty body compiles. -/
theorem c7_witness :
    NewI18nErrTmpl ErrBadRequest ⟨"T", ""⟩ = .error .otherMissing
    ∧ NewI18nErrTmpl ErrBadRequest ⟨"T", "User \x7b\x7b.Name not found"⟩ = .error .parseFailure
    ∧ NewI18nErrTmpl ErrBadRequest ⟨"T", "abc"⟩
        = .ok ⟨ErrBadRequest, ⟨"T", "abc"⟩, some [.text "abc"]⟩ := by
  refine ⟨(c7_compile ErrBadRequest ⟨"T", ""⟩).1.mpr rfl, ?_, ?_⟩
  · exact (c7_compile ErrBadRequest ⟨"T", "User \x7b\x7b.Name not found"⟩).2.1 (by decide) rfl
  · exact (c7_compile ErrBadRequest ⟨"T", "abc"⟩).2.2.1 [.text "abc"] (by decide) rfl

/-- The chain extraction of `errors.As` finds nothing exactly when no
ErrorValue occurs anywhere in the unwrap chain. -/
theorem goAsErr_none_iff : ∀ (err : GoError),
    goAsErr err = none ↔ ∀ w : Err, GoError.werr w ∉ chainElems err
  | .plainErr i m => by simp [goAsErr, chainElems]
  | .wrapErr c s => by simp [goAsErr, chainElems, goAsErr_none_iff c]
  | .werr w => by simp [goAsErr, chainElems]

/-- The ErrorValue found by chain extraction occurs in the unwrap chain. -/
theorem goAsErr_some_mem : ∀ (err : GoError) (w : Err),
    goAsErr err = some w → GoError.werr w ∈ chainElems err
  | .plainErr i m, w, h => by simp [goAsErr] at h
  | .wrapErr c s, w, h => by
    rw [goAsErr] at h
    simp [chainElems, goAsErr_some_mem c w h]
  | .werr v, w, h => by
    rw [goAsErr] at h
    injection h with h
    simp [chainElems, h]

/-- C8: `IsErrOf(err, code)` is true exactly when walking the cause chain
finds an ErrorValue whose code equals `code`: it reports the code
comparison of the chain-extracted ErrorValue, extraction fails exactly when
no ErrorValue occurs anywhere in the chain (so a plain error yields false
for every code), and an ErrorValue with a differing code yields false. -/
theorem c8_isErrOf (err : GoError) (code : String) (idn : Nat) (msg sfx : String) (v : Err) :
    IsErrOf err code = (match goAsErr err with
      | some w => w.GetCode == code
      | none => false)
    ∧ (goAsErr err = none ↔ ∀ w : Err, GoError.werr w ∉ chainElems err)
    ∧ (∀ w : Err, goAsErr err = some w → GoError.werr w ∈ chainElems err)
    ∧ IsErrOf (.plainErr idn msg) code = false
    ∧ IsErrOf (.wrapErr (.werr v) sfx) code = (v.GetCode == code) := by
  exact ⟨rfl, goAsErr_none_iff err, goAsErr_some_mem err, rfl, rfl⟩

/-- C8 witness: a wrapped `ErrBadRequest` is found in the chain and matches
its own code, mismatches another, and a plain error matches no code. -/
theorem c8_witness :
    GoError.werr ErrBadRequest ∈ chainElems (.wrapErr (.werr ErrBadRequest) "s")
    ∧ IsErrOf (.wrapErr (.werr ErrBadRequest) "s") "BadRequest" = true
    ∧ IsErrOf (.wrapErr (.werr ErrBadRequest) "s") "NotFound" = false
    ∧ IsErrOf (.plainErr 1 "p") "AnyCode" = false := by
  have h := c8_isErrOf (.wrapErr (.werr ErrBadRequest) "s") "AnyCode" 1 "p" "s" ErrBadRequest
  exact ⟨h.2.2.1 ErrBadRequest rfl, by decide, by decide, h.2.2.2.1⟩

/-- C9 counterexample: an ErrorValue with a non-empty params/metadata map
serializes with keys `code` and `message` only — no metadata (or params)
field appears even though the map is non-empty, against the claim that the
metadata field is present exactly when non-empty. -/
theorem c9_counterexample :
    jsonTopKeys (jsonOfErr (.mk (.plainErr 0 "x") 500 "C" "M" [] (some [("k", "v")])))
      = ["code", "message"]
    ∧ Err.GetParams (.mk (.plainErr 0 "x") 500 "C" "M" [] (some [("k", "v")]))
        = some [("k", "v")]
    ∧ (["code", "message"].contains "metadata") = false
    ∧ (["code", "message"].contains "params") = false
    ∧ (some [("k", "v")] : Option Params).isSome = true := by
  refine ⟨?_, rfl, by decide, by decide, rfl⟩
  simp [jsonOfErr, jsonTopKeys]

/-- C9 amended: the serialized form of every ErrorValue always contains the
code and message fields, contains the sub-errors (`details`) field exactly
when the sub-errors are non-empty, and never contains the HTTP status nor
the metadata/params map (the field is unexported and skipped by the
marshaller, even when non-empty). -/
theorem c9_amended (e : Err) :
    ((jsonTopKeys (jsonOfErr e)).contains "code") = true
    ∧ ((jsonTopKeys (jsonOfErr e)).contains "message") = true
    ∧ ((jsonTopKeys (jsonOfErr e)).contains "details") = !e.GetDetails.isEmpty
    ∧ ((jsonTopKeys (jsonOfErr e)).contains "status") = false
    ∧ ((jsonTopKeys (jsonOfErr e)).contains "httpStatus") = false
    ∧ ((jsonTopKeys (jsonOfErr e)).contains "metadata") = false
    ∧ ((jsonTopKeys (jsonOfErr e)).contains "params") = false := by
  obtain ⟨em, st, c, m, ds, p⟩ := e
  by_cases hds : ds.isEmpty = true
  · simp [jsonOfErr, jsonTopKeys, Err.GetDetails, hds]
  · simp only [Bool.not_eq_true] at hds
    simp [jsonOfErr, jsonTopKeys, Err.GetDetails, hds]

/-- C10: `GetParams` returns nil on a value whose params were never set
(all documented constructors leave them nil); after `SetParams` with a
non-nil map it reports exactly that map's entries; and after
`SetParams(nil)` it reports an empty non-nil map (the internal field is
non-nil).  Both accessors copy, which this pure model renders as plain
value passing. -/
theorem c10_params (e : Err) (m : Params) (em : GoError) (st : Int) (c msg : String)
    (d : List Err) :
    Err.GetParams (.mk em st c msg d none) = none
    ∧ (NewBaseErr st c msg).GetParams = none
    ∧ (NewErr e c msg).GetParams = none
    ∧ (NewErrFromError e (.plainErr 0 msg)).GetParams = none
    ∧ (e.SetParams (some m)).GetParams = some m
    ∧ (e.SetParams none).GetParams = some []
    ∧ ((e.SetParams none).paramsField).isSome = true := by
  obtain ⟨em2, st2, c2, m2, d2, p2⟩ := e
  exact ⟨rfl, rfl, rfl, rfl, rfl, rfl, rfl⟩

end Werror
